import Mathlib

/-!
Shallow embedding of `src/DecimalFormat.ts` (java-decimal-format).

Numbers: the TypeScript code computes with JS doubles; the reference
semantics the code aims at (and the epsilon tolerances in the code exist to
recover) is exact decimal arithmetic, so the embedding uses `ℚ` and models
`Math.floor`, `Math.ceil`, `Math.round` exactly.  The literal
`0.0000000001` of the source is the rational `1 / 10 ^ 10`.  A finite JS
double is modelled as a rational together with a negative-zero flag
(`JSFin`): the flag records the sign bit of a zero, and — exactly as in JS,
where `-0 < 0`, `-0 === 0` and `Math.abs(-0)` all behave as for `0` — no
comparison or arithmetic step of the embedded code reads it.
-/

namespace JavaDecimalFormat

/-- The eight rounding modes of `src/RoundingMode.ts`. -/
inductive RoundingMode
  | UP
  | DOWN
  | CEILING
  | FLOOR
  | HALF_UP
  | HALF_DOWN
  | HALF_EVEN
  | UNNECESSARY
deriving DecidableEq

/-- Errors thrown by `format`: `invalidInput` is the source's
`new Error('Cannot format NaN')` (the spec's `InvalidInputError`),
`roundingRequired` is `new Error('Rounding necessary')` (the spec's
`RoundingRequiredError`). -/
inductive FmtError
  | invalidInput
  | roundingRequired
deriving DecidableEq

/-- Decidable equality for `Except` results, so that concrete runs of the
embedded functions can be checked by `decide`. -/
instance {ε α : Type} [DecidableEq ε] [DecidableEq α] : DecidableEq (Except ε α) :=
  fun a b =>
    match a, b with
    | .ok x, .ok y =>
        if h : x = y then .isTrue (by rw [h]) else .isFalse (by simp [h])
    | .error x, .error y =>
        if h : x = y then .isTrue (by rw [h]) else .isFalse (by simp [h])
    | .ok _, .error _ => .isFalse (by simp)
    | .error _, .ok _ => .isFalse (by simp)

/-- JS `Math.round`: round half towards positive infinity. -/
def jsRound (q : ℚ) : ℤ := ⌊q + 1 / 2⌋

/-- The floating-point tolerance literal `0.0000000001` of the source. -/
def jsEpsilon : ℚ := 1 / 10 ^ 10

/-- `roundInteger` of `src/DecimalFormat.ts` (lines 261-307): rounding to an
integer (scale 0).  `sign = value < 0 ? -1 : 1`. -/
def roundInteger (mode : RoundingMode) (value : ℚ) : Except FmtError ℚ :=
  let sign : ℚ := if value < 0 then -1 else 1
  let absValue : ℚ := |value|
  match mode with
  | .UP => .ok (sign * (⌈absValue⌉ : ℚ))
  | .DOWN => .ok (sign * (⌊absValue⌋ : ℚ))
  | .CEILING => .ok ((⌈value⌉ : ℚ))
  | .FLOOR => .ok ((⌊value⌋ : ℚ))
  | .HALF_UP => .ok (sign * (jsRound absValue : ℚ))
  | .HALF_DOWN =>
      .ok (sign * (if ⌊absValue + 1 / 2⌋ = ⌈absValue - 1 / 2⌉
        then (⌊absValue⌋ : ℚ) else (jsRound absValue : ℚ)))
  | .HALF_EVEN =>
      let floored : ℤ := ⌊absValue⌋
      let fraction : ℚ := absValue - floored
      let result : ℤ :=
        if 1 / 2 < fraction then floored + 1
        else if fraction < 1 / 2 then floored
        else if floored % 2 = 0 then floored else floored + 1
      .ok (sign * (result : ℚ))
  | .UNNECESSARY =>
      if value ≠ (⌊value⌋ : ℚ) then .error .roundingRequired else .ok value

/-- `round` of `src/DecimalFormat.ts` (lines 168-259): round `value` to
`scale` fraction digits.  For `scale = 0` it defers to `roundInteger`;
otherwise `sign = value >= 0 ? 1 : -1`, the absolute value is scaled by
`10 ^ scale`, rounded to an integer per mode, and scaled back.  The
source's final `parseFloat(result.toFixed(scale))` is the identity in
exact arithmetic (`roundedScaled / factor` already has `scale` decimal
digits), so the embedding returns `sign * (roundedScaled / factor)`. -/
def round (mode : RoundingMode) (value : ℚ) (scale : ℕ) : Except FmtError ℚ :=
  if scale = 0 then roundInteger mode value
  else
    let factor : ℚ := 10 ^ scale
    let sign : ℚ := if 0 ≤ value then 1 else -1
    let scaled : ℚ := |value| * factor
    let finish : ℤ → Except FmtError ℚ :=
      fun roundedScaled => .ok (sign * ((roundedScaled : ℚ) / factor))
    match mode with
    | .UP => finish ⌈scaled⌉
    | .DOWN => finish ⌊scaled⌋
    | .CEILING => if 0 < sign then finish ⌈scaled⌉ else finish ⌊scaled⌋
    | .FLOOR => if 0 < sign then finish ⌊scaled⌋ else finish ⌈scaled⌉
    | .HALF_UP => finish (jsRound (scaled + jsEpsilon))
    | .HALF_DOWN =>
        let floored : ℤ := ⌊scaled⌋
        let fraction : ℚ := scaled - floored
        if 1 / 2 < fraction then finish (floored + 1) else finish floored
    | .HALF_EVEN =>
        let floored : ℤ := ⌊scaled⌋
        let fraction : ℚ := scaled - floored
        if 1 / 2 + jsEpsilon < fraction then finish (floored + 1)
        else if fraction < 1 / 2 - jsEpsilon then finish floored
        else if floored % 2 = 0 then finish floored else finish (floored + 1)
    | .UNNECESSARY =>
        if jsEpsilon < |scaled - (jsRound scaled : ℚ)| then .error .roundingRequired
        else finish (jsRound scaled)

/-- `padStart` of JS strings, on character lists: left-pad with `c` up to
length `n` (identity when already long enough). -/
def padStart (l : List Char) (n : ℕ) (c : Char) : List Char :=
  List.replicate (n - l.length) c ++ l

/-- One step of the trailing-zero trimming loop of `formatStandard`
(lines 104-106), acting on the reversed fraction string: while the string
is longer than `minLen` and starts (i.e. originally ends) with `'0'`,
drop that zero. -/
def trimRev (minLen : ℕ) : List Char → List Char
  | [] => []
  | c :: rest =>
      if minLen < (c :: rest).length ∧ c = '0' then trimRev minLen rest
      else c :: rest

/-- The `while` loop of lines 104-106: remove trailing `'0'` characters
down to (never below) `minLen`. -/
def trimTrailingZeros (l : List Char) (minLen : ℕ) : List Char :=
  (trimRev minLen l.reverse).reverse

/-- The loop body of `applyGrouping` (lines 154-166), on the reversed
digit list with running index `i`: a `','` is pushed before every digit
whose index is a positive multiple of `groupSize`. -/
def groupRev (groupSize : ℕ) : List Char → ℕ → List Char
  | [], _ => []
  | c :: rest, i =>
      (if 0 < i ∧ i % groupSize = 0 then [','] else []) ++
        c :: groupRev groupSize rest (i + 1)

/-- `applyGrouping` of `src/DecimalFormat.ts` (lines 154-166): insert `','`
every `groupSize` digits counting from the right. -/
def applyGrouping (integerStr : List Char) (groupSize : ℕ) : List Char :=
  (groupRev groupSize integerStr.reverse 0).reverse

/-- Lines 89-95 of `formatStandard`: minimum-integer-digit handling.  If
`minIntegerDigits` is `0` and the integer string is exactly `"0"`, the
integer string becomes empty; otherwise it is left-padded with `'0'` up to
`minIntegerDigits`. -/
def applyMinIntegerDigits (minDigits : ℕ) (integerPart : List Char) : List Char :=
  if minDigits = 0 ∧ integerPart = ['0'] then []
  else if integerPart.length < minDigits then
    List.replicate (minDigits - integerPart.length) '0' ++ integerPart
  else integerPart

/-- The `ParsedPattern` interface of `src/DecimalFormat.ts` (lines 3-18).
Text fragments are character lists; `maxIntegerDigits` defaults to JS
`Number.MAX_SAFE_INTEGER = 9007199254740991`. -/
structure ParsedPattern where
  positivePrefix : List Char
  positiveSuffix : List Char
  negativePrefix : List Char
  negativeSuffix : List Char
  minIntegerDigits : ℕ
  maxIntegerDigits : ℕ
  minFractionDigits : ℕ
  maxFractionDigits : ℕ
  groupingSize : ℕ
  groupingUsed : Bool
  decimalSeparatorAlwaysShown : Bool
  useExponentialNotation : Bool
  minExponentDigits : ℕ
  multiplier : ℚ
deriving DecidableEq

/-- The character list of the decimal representation of a natural number
(JS `Number.prototype.toString` on a non-negative integer). -/
def natToChars (n : ℕ) : List Char := (Nat.repr n).data

/-- `Math.floor(Math.log10 q)` for `q > 0`, in exact arithmetic: the unique
`e` with `10 ^ e ≤ q < 10 ^ (e + 1)`.  For `q ≥ 1` this is the number of
decimal digits of `⌊q⌋` minus one; for `0 < q < 1` it is
`-⌈log10 (1/q)⌉`, and `⌈log10 r⌉` for `r > 1` is the number of decimal
digits of `⌈r⌉ - 1`. -/
def ilog10 (q : ℚ) : ℤ :=
  if 1 ≤ q then ((natToChars (⌊q⌋).toNat).length - 1 : ℕ)
  else -(((natToChars ((⌈1 / q⌉).toNat - 1)).length : ℕ) : ℤ)

/-- `formatStandard` of `src/DecimalFormat.ts` (lines 76-114).  The value is
rounded (sign-aware) to `maxFractionDigits`, the absolute value is scaled by
`10 ^ maxFractionDigits` and rounded to an integer (`Math.round`; the
result is nonnegative, so `Int.toNat` is lossless), then split into integer
and fraction digit strings, padded, grouped and trimmed. -/
def formatStandard (pp : ParsedPattern) (mode : RoundingMode) (value : ℚ) :
    Except FmtError (List Char) :=
  match round mode value pp.maxFractionDigits with
  | .error e => .error e
  | .ok rounded =>
    let absRounded : ℚ := |rounded|
    let factorN : ℕ := 10 ^ pp.maxFractionDigits
    let scaled : ℕ := (jsRound (absRounded * (factorN : ℚ))).toNat
    let integerPart : List Char := natToChars (scaled / factorN)
    let fractionPart : List Char :=
      padStart (natToChars (scaled % factorN)) pp.maxFractionDigits '0'
    let integerPart := applyMinIntegerDigits pp.minIntegerDigits integerPart
    let integerPart :=
      if pp.groupingUsed ∧ 0 < pp.groupingSize then
        applyGrouping integerPart pp.groupingSize
      else integerPart
    let fractionPart := trimTrailingZeros fractionPart pp.minFractionDigits
    if fractionPart ≠ [] ∨ pp.decimalSeparatorAlwaysShown then
      .ok (integerPart ++ '.' :: fractionPart)
    else
      .ok integerPart

/-- `formatExponential` of `src/DecimalFormat.ts` (lines 116-152), on a
nonnegative value (`format` passes `Math.abs(value)`).  The mantissa is
`value / 10 ^ exponent` with `exponent = Math.floor(Math.log10 value)`; it
is rounded to `maxFractionDigits`, rendered by `toFixed` (exact here: the
rounded mantissa has at most `maxFractionDigits` decimals), trimmed, and
the exponent is appended after `'E'`. -/
def formatExponential (pp : ParsedPattern) (mode : RoundingMode) (value : ℚ) :
    Except FmtError (List Char) :=
  if value = 0 then
    .ok (List.replicate pp.minIntegerDigits '0' ++
      (if 0 < pp.maxFractionDigits then ['.'] else []) ++
      'E' :: List.replicate pp.minExponentDigits '0')
  else
    let exponent : ℤ := ilog10 value
    let mantissa : ℚ := value / 10 ^ exponent
    match round mode mantissa pp.maxFractionDigits with
    | .error e => .error e
    | .ok rounded =>
      let factorN : ℕ := 10 ^ pp.maxFractionDigits
      let digits : ℕ := (jsRound (rounded * (factorN : ℚ))).toNat
      let intPart : List Char := natToChars (digits / factorN)
      let fracPart : List Char :=
        if pp.maxFractionDigits = 0 then []
        else padStart (natToChars (digits % factorN)) pp.maxFractionDigits '0'
      let fracPart := trimTrailingZeros fracPart pp.minFractionDigits
      let mantissaChars :=
        intPart ++ (if fracPart ≠ [] then '.' :: fracPart else [])
      let expChars :=
        padStart (natToChars exponent.natAbs) pp.minExponentDigits '0'
      .ok (mantissaChars ++ 'E' :: (if 0 ≤ exponent then [] else ['-']) ++ expChars)

/-- The four regions of the sub-pattern scanner of `parseSubpattern`
(line 376: `'prefix' | 'number' | 'suffix' | 'exponent'`). -/
inductive ScanRegion
  | inPrefix
  | inNumber
  | inExponent
  | inSuffix
deriving DecidableEq

/-- The mutable locals of the `while` loop of `parseSubpattern`
(lines 360-441). -/
structure ScanState where
  region : ScanRegion
  inQuote : Bool
  prefixChars : List Char
  suffixChars : List Char
  numberPart : List Char
  useExponentialNotation : Bool
  minExponentDigits : ℕ
  multiplier : ℚ
deriving DecidableEq

/-- Whether a character is one of the four number-region characters
`'0'`, `'#'`, `','`, `'.'` (the transition test of line 397 and the
append test of line 412). -/
def isNumberChar (ch : Char) : Prop :=
  ch = '0' ∨ ch = '#' ∨ ch = ',' ∨ ch = '.'

instance (ch : Char) : Decidable (isNumberChar ch) := by
  unfold isNumberChar; infer_instance

/-- One iteration of the `while` loop of `parseSubpattern` (lines 380-441):
a quote toggles `inQuote`; a quoted character is copied into the prefix or
suffix text (and dropped in the number region); otherwise the
`prefix → number` transition fires on a number character, and the current
region consumes the character (`%` and `'‰'` set the multiplier in the
prefix and number→suffix branches). -/
def scanStep (st : ScanState) (ch : Char) : ScanState :=
  if ch = '\'' then { st with inQuote := !st.inQuote }
  else if st.inQuote then
    match st.region with
    | .inPrefix => { st with prefixChars := st.prefixChars ++ [ch] }
    | .inSuffix => { st with suffixChars := st.suffixChars ++ [ch] }
    | .inExponent => { st with suffixChars := st.suffixChars ++ [ch] }
    | .inNumber => st
  else
    let st :=
      if isNumberChar ch ∧ st.region = .inPrefix then { st with region := .inNumber }
      else st
    match st.region with
    | .inPrefix =>
        if ch = '%' then
          { st with multiplier := 100, prefixChars := st.prefixChars ++ [ch] }
        else if ch = '‰' then
          { st with multiplier := 1000, prefixChars := st.prefixChars ++ [ch] }
        else { st with prefixChars := st.prefixChars ++ [ch] }
    | .inNumber =>
        if isNumberChar ch then { st with numberPart := st.numberPart ++ [ch] }
        else if ch = 'E' ∨ ch = 'e' then
          { st with useExponentialNotation := true, region := .inExponent }
        else if ch = '%' then
          { st with region := .inSuffix, multiplier := 100, suffixChars := st.suffixChars ++ [ch] }
        else if ch = '‰' then
          { st with region := .inSuffix, multiplier := 1000, suffixChars := st.suffixChars ++ [ch] }
        else { st with region := .inSuffix, suffixChars := st.suffixChars ++ [ch] }
    | .inExponent =>
        if ch = '0' then { st with minExponentDigits := st.minExponentDigits + 1 }
        else { st with region := .inSuffix, suffixChars := st.suffixChars ++ [ch] }
    | .inSuffix => { st with suffixChars := st.suffixChars ++ [ch] }

/-- The result record of `parseSubpattern` (lines 487-501). -/
structure SubpatternResult where
  prefixChars : List Char
  suffixChars : List Char
  minIntegerDigits : ℕ
  maxIntegerDigits : ℕ
  minFractionDigits : ℕ
  maxFractionDigits : ℕ
  groupingSize : ℕ
  groupingUsed : Bool
  decimalSeparatorAlwaysShown : Bool
  useExponentialNotation : Bool
  minExponentDigits : ℕ
  multiplier : ℚ
deriving DecidableEq

/-- The initial scanner state of `parseSubpattern` (lines 361-378):
region `prefix`, not in a quote, empty texts, `multiplier = 1`. -/
def scanInit : ScanState := ⟨.inPrefix, false, [], [], [], false, 0, 1⟩

/-- `parseSubpattern` of `src/DecimalFormat.ts` (lines 360-501): run the
scanner over the sub-pattern, then (lines 443-485) split the accumulated
number text at its first `'.'`, derive grouping from the last `','` of the
integer text (`groupingSize` = number of characters after it, which is the
index of that `','` in the reversed integer text), and count `'0'`/`'#'`
characters.  When the number text is empty the declaration-time defaults
survive: `minIntegerDigits = 1`, `maxIntegerDigits = 9007199254740991`
(JS `Number.MAX_SAFE_INTEGER`), fraction counts `0`. -/
def parseSubpattern (subpattern : List Char) : SubpatternResult :=
  let fin := subpattern.foldl scanStep scanInit
  if fin.numberPart = [] then
    { prefixChars := fin.prefixChars, suffixChars := fin.suffixChars,
      minIntegerDigits := 1, maxIntegerDigits := 9007199254740991,
      minFractionDigits := 0, maxFractionDigits := 0,
      groupingSize := 0, groupingUsed := false,
      decimalSeparatorAlwaysShown := false,
      useExponentialNotation := fin.useExponentialNotation,
      minExponentDigits := fin.minExponentDigits,
      multiplier := fin.multiplier }
  else
    let integerPart : List Char :=
      match fin.numberPart.findIdx? (· = '.') with
      | some dotIndex => fin.numberPart.take dotIndex
      | none => fin.numberPart
    let fractionPart : List Char :=
      match fin.numberPart.findIdx? (· = '.') with
      | some dotIndex => fin.numberPart.drop (dotIndex + 1)
      | none => []
    let decimalSeparatorAlwaysShown : Bool :=
      match fin.numberPart.findIdx? (· = '.') with
      | some _ => fractionPart = []
      | none => false
    let groupingUsed : Bool := (integerPart.reverse.findIdx? (· = ',')).isSome
    let groupingSize : ℕ :=
      match integerPart.reverse.findIdx? (· = ',') with
      | some j => j
      | none => 0
    let intDigits : List Char := integerPart.filter (· ≠ ',')
    let zeroCount : ℕ := intDigits.count '0'
    let hashCount : ℕ := intDigits.count '#'
    { prefixChars := fin.prefixChars, suffixChars := fin.suffixChars,
      minIntegerDigits := zeroCount, maxIntegerDigits := zeroCount + hashCount,
      minFractionDigits := fractionPart.count '0',
      maxFractionDigits := fractionPart.count '0' + fractionPart.count '#',
      groupingSize := groupingSize, groupingUsed := groupingUsed,
      decimalSeparatorAlwaysShown := decimalSeparatorAlwaysShown,
      useExponentialNotation := fin.useExponentialNotation,
      minExponentDigits := fin.minExponentDigits,
      multiplier := fin.multiplier }

/-- `findUnquotedSemicolon` of `src/DecimalFormat.ts` (lines 348-358): the
index of the first `';'` outside single-quote spans, if any. -/
def findUnquotedSemicolonAux : List Char → Bool → ℕ → Option ℕ
  | [], _, _ => none
  | c :: rest, inQuote, i =>
      if c = '\'' then findUnquotedSemicolonAux rest (!inQuote) (i + 1)
      else if c = ';' ∧ inQuote = false then some i
      else findUnquotedSemicolonAux rest inQuote (i + 1)

/-- `parsePattern` of `src/DecimalFormat.ts` (lines 309-346): split at the
first unquoted `';'`; parse the positive sub-pattern; parse the negative
sub-pattern when present and non-empty (JS `if (negativePattern)` — an
empty string after `';'` is falsy), otherwise derive it by prepending
`'-'` to the positive prefix. -/
def parsePattern (pattern : List Char) : ParsedPattern :=
  let semicolonIndex := findUnquotedSemicolonAux pattern false 0
  let positivePattern : List Char :=
    match semicolonIndex with
    | some i => pattern.take i
    | none => pattern
  let negativePattern : Option (List Char) :=
    match semicolonIndex with
    | some i => some (pattern.drop (i + 1))
    | none => none
  let positive := parseSubpattern positivePattern
  let negative : SubpatternResult :=
    match negativePattern with
    | some np =>
        if np = [] then { positive with prefixChars := '-' :: positive.prefixChars }
        else parseSubpattern np
    | none => { positive with prefixChars := '-' :: positive.prefixChars }
  { positivePrefix := positive.prefixChars,
    positiveSuffix := positive.suffixChars,
    negativePrefix := negative.prefixChars,
    negativeSuffix := negative.suffixChars,
    minIntegerDigits := positive.minIntegerDigits,
    maxIntegerDigits := positive.maxIntegerDigits,
    minFractionDigits := positive.minFractionDigits,
    maxFractionDigits := positive.maxFractionDigits,
    groupingSize := positive.groupingSize,
    groupingUsed := positive.groupingUsed,
    decimalSeparatorAlwaysShown := positive.decimalSeparatorAlwaysShown,
    useExponentialNotation := positive.useExponentialNotation,
    minExponentDigits := positive.minExponentDigits,
    multiplier := positive.multiplier }

/-- A finite JS double in the exact model: a rational value and the sign
bit of a zero (`negZero` is meaningful only when `val = 0`).  JS gives
`-0 < 0 = false`, `-0 === 0 = true` and `Math.abs(-0) = 0`, so every
comparison and arithmetic step below reads only `val`. -/
structure JSFin where
  val : ℚ
  negZero : Bool
deriving DecidableEq

/-- The input to `format`: `NaN`, `±Infinity`, or a finite double. -/
inductive JSNumber
  | nan
  | infinite (isPos : Bool)
  | finite (x : JSFin)
deriving DecidableEq

/-- `format` of `src/DecimalFormat.ts` (lines 43-74).  `NaN` throws;
`±Infinity` returns the infinity glyph (bypassing multiplier, digit rules
and prefixes); otherwise the multiplier is applied (the compiled multiplier
is positive, so a negative zero stays a negative zero), the sign is
resolved by `value < 0 && value !== 0` (negative zero takes the positive
branch), and the body is rendered exponentially or standardly. -/
def format (pp : ParsedPattern) (mode : RoundingMode) (number : JSNumber) :
    Except FmtError (List Char) :=
  match number with
  | .nan => .error .invalidInput
  | .infinite isPos => .ok (if isPos then ['∞'] else ['-', '∞'])
  | .finite x =>
    let value : JSFin := ⟨x.val * pp.multiplier, x.negZero⟩
    let pre : List Char :=
      if value.val < 0 ∧ value.val ≠ 0 then pp.negativePrefix else pp.positivePrefix
    let suf : List Char :=
      if value.val < 0 ∧ value.val ≠ 0 then pp.negativeSuffix else pp.positiveSuffix
    match
      (if pp.useExponentialNotation then formatExponential pp mode |value.val|
       else formatStandard pp mode value.val) with
    | .error e => .error e
    | .ok formatted => .ok (pre ++ formatted ++ suf)

/-- The `DecimalFormat` instance state: the verbatim pattern text, the
compiled rules, and the rounding mode (fields of lines 29-31). -/
structure DecimalFormat where
  pattern : List Char
  parsedPattern : ParsedPattern
  roundingMode : RoundingMode
deriving DecidableEq

/-- The class-field default pattern `'#,##0.###'` (line 29). -/
def defaultPattern : List Char := "#,##0.###".data

/-- The constructor (lines 33-38): `if (pattern) this.pattern = pattern` —
a JS empty string is falsy, so constructing with `''` keeps the default
pattern — then the pattern is compiled.  The rounding mode starts as
`HALF_EVEN` (line 31). -/
def DecimalFormat.new (pattern : Option (List Char)) : DecimalFormat :=
  let pat : List Char :=
    match pattern with
    | some p => if p = [] then defaultPattern else p
    | none => defaultPattern
  ⟨pat, parsePattern pat, .HALF_EVEN⟩

/-- `applyPattern` (lines 505-508): store the new pattern text verbatim and
recompile the rules; the rounding mode field is not touched. -/
def DecimalFormat.applyPattern (df : DecimalFormat) (pattern : List Char) :
    DecimalFormat :=
  { df with pattern := pattern, parsedPattern := parsePattern pattern }

/-- `toPattern` (lines 510-512): the stored pattern text, verbatim. -/
def DecimalFormat.toPattern (df : DecimalFormat) : List Char := df.pattern

/-- `setRoundingMode` (lines 594-596). -/
def DecimalFormat.setRoundingMode (df : DecimalFormat) (mode : RoundingMode) :
    DecimalFormat :=
  { df with roundingMode := mode }

/-- `getRoundingMode` (lines 598-600). -/
def DecimalFormat.getRoundingMode (df : DecimalFormat) : RoundingMode :=
  df.roundingMode

/-- `getMinimumIntegerDigits` (lines 550-552). -/
def DecimalFormat.getMinimumIntegerDigits (df : DecimalFormat) : ℕ :=
  df.parsedPattern.minIntegerDigits

/-- `getMaximumIntegerDigits` (lines 558-560). -/
def DecimalFormat.getMaximumIntegerDigits (df : DecimalFormat) : ℕ :=
  df.parsedPattern.maxIntegerDigits

/-- `getMinimumFractionDigits` (lines 566-568). -/
def DecimalFormat.getMinimumFractionDigits (df : DecimalFormat) : ℕ :=
  df.parsedPattern.minFractionDigits

/-- `getMaximumFractionDigits` (lines 574-576). -/
def DecimalFormat.getMaximumFractionDigits (df : DecimalFormat) : ℕ :=
  df.parsedPattern.maxFractionDigits

/-- The `format` method as a state transformer: the returned state is the
translation of the method body, which contains no assignment to any
instance field, so it is the input state itself. -/
def DecimalFormat.formatM (df : DecimalFormat) (number : JSNumber) :
    Except FmtError (List Char) × DecimalFormat :=
  (format df.parsedPattern df.roundingMode number, df)

/-- The `format` method's return value on an instance. -/
def DecimalFormat.formatValue (df : DecimalFormat) (number : JSNumber) :
    Except FmtError (List Char) :=
  format df.parsedPattern df.roundingMode number

/-!  Theorems for the claims.  -/

/-- C8: for every compiled pattern and rounding mode, `format(NaN)` throws
the invalid-input error and produces no output, `format(+Infinity)`
returns `"∞"` and `format(-Infinity)` returns `"-∞"`, independently of the
rules (multiplier, digit rules, prefixes and suffixes are bypassed). -/
theorem C8_nan_infinity (pp : ParsedPattern) (mode : RoundingMode) :
    format pp mode .nan = .error .invalidInput ∧
    format pp mode (.infinite true) = .ok ['∞'] ∧
    format pp mode (.infinite false) = .ok ['-', '∞'] :=
  ⟨rfl, rfl, rfl⟩

/-- C9: when `minIntegerDigits = 0` and the rounded integer digit string is
exactly `"0"`, the integer part is emitted empty (the dedicated step
`applyMinIntegerDigits`, used by `formatStandard`); in particular pattern
`###.##` formats `0.5` as `".5"`. -/
theorem C9_zero_suppression :
    applyMinIntegerDigits 0 ['0'] = [] ∧
    format (parsePattern "###.##".data) .HALF_EVEN (.finite ⟨1/2, false⟩) =
      .ok ".5".data := by
  constructor
  · rfl
  · with_unfolding_all decide

/-- C10: `format` is deterministic and state-preserving: the post-state of
a call equals the pre-state (pattern text, compiled rules and rounding mode
all unchanged, whether the result is a value or an error), and a second
call on the post-state returns the identical result. -/
theorem C10_format_pure (df : DecimalFormat) (n : JSNumber) :
    (df.formatM n).2 = df ∧
    (df.formatM n).2.pattern = df.pattern ∧
    (df.formatM n).2.parsedPattern = df.parsedPattern ∧
    (df.formatM n).2.roundingMode = df.roundingMode ∧
    ((df.formatM n).2.formatM n).1 = (df.formatM n).1 :=
  ⟨rfl, rfl, rfl, rfl, rfl⟩

/-- C2: `applyPattern` replaces the stored pattern text and the compiled
rules with those compiled from the new pattern while leaving the rounding
mode exactly as it was; concretely, a formatter set to `HALF_DOWN` still
breaks the tie `1.35` downwards (`"1.3"`) after `applyPattern("0.0")`,
whereas the default `HALF_EVEN` mode gives `"1.4"`. -/
theorem C2_applyPattern_preserves_roundingMode :
    (∀ (df : DecimalFormat) (p : List Char),
      (df.applyPattern p).roundingMode = df.roundingMode ∧
      (df.applyPattern p).parsedPattern = parsePattern p ∧
      (df.applyPattern p).pattern = p) ∧
    (((DecimalFormat.new none).setRoundingMode .HALF_DOWN).applyPattern
        "0.0".data).formatValue (.finite ⟨27/20, false⟩) = .ok "1.3".data ∧
    ((DecimalFormat.new none).applyPattern "0.0".data).formatValue
        (.finite ⟨27/20, false⟩) = .ok "1.4".data := by
  refine ⟨fun df p => ⟨rfl, rfl, rfl⟩, ?_, ?_⟩
  · with_unfolding_all decide
  · with_unfolding_all decide

/-- C4: negative zero collapses onto positive zero: under every rule set
and rounding mode, formatting a negative-zero input yields exactly the
same result as formatting positive zero (the sign-resolution guard
`value < 0 && value !== 0` sends negative zero to the positive branch);
under the default pattern both render as `"0"`. -/
theorem C4_negative_zero (pp : ParsedPattern) (mode : RoundingMode) :
    format pp mode (.finite ⟨0, true⟩) = format pp mode (.finite ⟨0, false⟩) ∧
    (DecimalFormat.new none).formatValue (.finite ⟨0, true⟩) = .ok ['0'] := by
  refine ⟨rfl, ?_⟩
  with_unfolding_all decide

/-- C3 counterexample: constructing with the empty pattern string does not
round-trip — `if (pattern)` treats the empty string as falsy, so the
default pattern survives and `toPattern()` returns `"#,##0.###"`, not
`""`. -/
theorem C3_counterexample :
    (DecimalFormat.new (some [])).toPattern = "#,##0.###".data ∧
    "#,##0.###".data ≠ ([] : List Char) := by
  constructor
  · rfl
  · decide

/-- C3 (amended): `toPattern()` returns the supplied pattern string
verbatim after construction with any non-empty pattern, and after
`applyPattern(p)` for every `p` (including the empty string); construction
with the empty string keeps the default pattern instead. -/
theorem C3_toPattern_roundtrip (p : List Char) (df : DecimalFormat) :
    (p ≠ [] → (DecimalFormat.new (some p)).toPattern = p) ∧
    (df.applyPattern p).toPattern = p := by
  refine ⟨fun h => ?_, rfl⟩
  simp [DecimalFormat.new, DecimalFormat.toPattern, h]

/-- C3 witness: the amended round-trip at the concrete pattern `"0"`. -/
theorem C3_toPattern_roundtrip_witness :
    ("0".data ≠ ([] : List Char) ∧
      (DecimalFormat.new (some "0".data)).toPattern = "0".data) ∧
    ((DecimalFormat.new none).applyPattern "0".data).toPattern = "0".data :=
  ⟨⟨by decide, (C3_toPattern_roundtrip "0".data (DecimalFormat.new none)).1 (by decide)⟩,
    (C3_toPattern_roundtrip "0".data (DecimalFormat.new none)).2⟩

/-- A character that is none of `'0'`, `'#'`, `','`, `'.'` keeps the
scanner in the prefix region with an empty number text. -/
theorem scanStep_no_digit (st : ScanState) (c : Char) (hc : ¬ isNumberChar c)
    (hr : st.region = .inPrefix) (hn : st.numberPart = []) :
    (scanStep st c).region = .inPrefix ∧ (scanStep st c).numberPart = [] := by
  obtain ⟨reg, q, px, sx, np, ue, me, m⟩ := st
  simp only at hr hn
  subst hr hn
  unfold scanStep
  by_cases hq : c = '\''
  · simp [hq]
  · simp only [hq, if_false]
    by_cases hinq : q
    · simp [hinq]
    · simp [hinq, hc]
      by_cases hp : c = '%'
      · simp [hp]
      · by_cases hm : c = '‰' <;> simp [hp, hm]

/-- Scanning a string with no number characters from a prefix-region state
with empty number text leaves the number text empty. -/
theorem scan_no_digit (l : List Char) :
    ∀ st : ScanState, st.region = .inPrefix → st.numberPart = [] →
      (∀ c ∈ l, ¬ isNumberChar c) → (l.foldl scanStep st).numberPart = [] := by
  induction l with
  | nil => intro st _ hn _; simpa using hn
  | cons c rest ih =>
      intro st hr hn hl
      have hstep := scanStep_no_digit st c (hl c (by simp)) hr hn
      simpa using ih (scanStep st c) hstep.1 hstep.2 fun d hd => hl d (by simp [hd])

/-- C5 counterexample: pattern `"abc"` has no digit characters, yet the
compiled digit counts are not all zero — the declaration-time defaults
`minIntegerDigits = 1` and `maxIntegerDigits = 9007199254740991`
(`Number.MAX_SAFE_INTEGER`) survive, because the `if (numberPart)` block
that overwrites them never runs. -/
theorem C5_counterexample :
    ¬ ((DecimalFormat.new (some "abc".data)).getMinimumIntegerDigits = 0 ∧
       (DecimalFormat.new (some "abc".data)).getMaximumIntegerDigits = 0 ∧
       (DecimalFormat.new (some "abc".data)).getMinimumFractionDigits = 0 ∧
       (DecimalFormat.new (some "abc".data)).getMaximumFractionDigits = 0) ∧
    (DecimalFormat.new (some "abc".data)).getMinimumIntegerDigits = 1 ∧
    (DecimalFormat.new (some "abc".data)).getMaximumIntegerDigits = 9007199254740991 := by
  refine ⟨?_, ?_, ?_⟩ <;> with_unfolding_all decide

/-- C5 (amended): a sub-pattern containing no digit character (`'0'`,
`'#'`, `','`, `'.'`) compiles to the declaration-time defaults
`minIntegerDigits = 1`, `maxIntegerDigits = 9007199254740991`
(`Number.MAX_SAFE_INTEGER`), `minFractionDigits = 0`,
`maxFractionDigits = 0` — not to all-zero digit counts. -/
theorem C5_no_digit_defaults (s : List Char) (h : ∀ c ∈ s, ¬ isNumberChar c) :
    (parseSubpattern s).minIntegerDigits = 1 ∧
    (parseSubpattern s).maxIntegerDigits = 9007199254740991 ∧
    (parseSubpattern s).minFractionDigits = 0 ∧
    (parseSubpattern s).maxFractionDigits = 0 := by
  have hnp : (s.foldl scanStep scanInit).numberPart = [] :=
    scan_no_digit s scanInit rfl rfl h
  unfold parseSubpattern
  simp [hnp]

/-- C5 witness: the amended default-counts statement at the concrete
digit-free sub-pattern `"xy"`. -/
theorem C5_no_digit_defaults_witness :
    (parseSubpattern "xy".data).minIntegerDigits = 1 ∧
    (parseSubpattern "xy".data).maxIntegerDigits = 9007199254740991 ∧
    (parseSubpattern "xy".data).minFractionDigits = 0 ∧
    (parseSubpattern "xy".data).maxFractionDigits = 0 :=
  C5_no_digit_defaults "xy".data (by decide)

/-- Floor of a natural number plus one half. -/
theorem floor_nat_add_half (n : ℕ) : ⌊(n : ℚ) + 1 / 2⌋ = (n : ℤ) := by
  rw [Int.floor_eq_iff]
  constructor
  · push_cast; linarith
  · push_cast; linarith

/-- Under `HALF_EVEN`, a nonnegative value exactly halfway between the two
neighbours at scale `s` rounds to the neighbour whose last retained digit
is even. -/
theorem round_half_even_tie_nonneg :
    ∀ (x : ℚ) (s n : ℕ), 0 ≤ x → x * 10 ^ s = (n : ℚ) + 1 / 2 →
      round .HALF_EVEN x s =
        .ok ((if n % 2 = 0 then (n : ℚ) else (n : ℚ) + 1) / 10 ^ s) := by
  intro x s n hx heq
  have habs : |x| = x := abs_of_nonneg hx
  have hpar : ((n : ℤ) % 2 = 0) ↔ (n % 2 = 0) := by omega
  by_cases hs : s = 0
  · subst hs
    have hx' : x = (n : ℚ) + 1 / 2 := by simpa using heq
    have hnneg : ¬ (x < 0) := not_lt.mpr hx
    subst hx'
    have hfl : ⌊(n : ℚ) + 1 / 2⌋ = (n : ℤ) := floor_nat_add_half n
    simp only [round, if_pos rfl, roundInteger, hnneg, if_false, habs, hfl]
    have hfrac : (n : ℚ) + 1 / 2 - ((n : ℤ) : ℚ) = 1 / 2 := by push_cast; ring
    rw [hfrac]
    rw [if_neg (lt_irrefl ((1 : ℚ) / 2)), if_neg (lt_irrefl ((1 : ℚ) / 2))]
    by_cases hp : n % 2 = 0
    · rw [if_pos (hpar.mpr hp), if_pos hp]
      simp only [pow_zero, div_one, one_mul, Except.ok.injEq]
      push_cast
      ring_nf
    · rw [if_neg fun h => hp (hpar.mp h), if_neg hp]
      simp only [pow_zero, div_one, one_mul, Except.ok.injEq]
      push_cast
      ring_nf
  · have hsc : |x| * 10 ^ s = (n : ℚ) + 1 / 2 := by rw [habs]; exact heq
    have hsign : (0 : ℚ) ≤ x := hx
    simp only [round, hs, if_false, if_pos hsign, hsc]
    rw [floor_nat_add_half n]
    have hfrac : (n : ℚ) + 1 / 2 - ((n : ℤ) : ℚ) = 1 / 2 := by push_cast; ring
    rw [hfrac]
    have hc1 : ¬ (1 / 2 + jsEpsilon < (1 : ℚ) / 2) := by unfold jsEpsilon; norm_num
    have hc2 : ¬ ((1 : ℚ) / 2 < 1 / 2 - jsEpsilon) := by unfold jsEpsilon; norm_num
    rw [if_neg hc1, if_neg hc2]
    by_cases hp : n % 2 = 0
    · rw [if_pos (hpar.mpr hp), if_pos hp]
      simp only [one_mul, Except.ok.injEq]
      push_cast; ring
    · rw [if_neg fun h => hp (hpar.mp h), if_neg hp]
      simp only [one_mul, Except.ok.injEq]
      push_cast; ring

/-- `Math.round` lands within one half of its argument. -/
theorem jsRound_dist (q : ℚ) : |q - (jsRound q : ℚ)| ≤ 1 / 2 := by
  unfold jsRound
  have h1 : ((⌊q + 1 / 2⌋ : ℤ) : ℚ) ≤ q + 1 / 2 := Int.floor_le _
  have h2 : q + 1 / 2 < (⌊q + 1 / 2⌋ : ℚ) + 1 := Int.lt_floor_add_one _
  rw [abs_le]
  constructor <;> linarith

/-- Two integers within distance less than one (as rationals) are equal. -/
theorem int_cast_dist_lt_one {a b : ℤ} (h : |((a : ℚ)) - (b : ℚ)| < 1) : a = b := by
  by_contra hne
  have h1 : (1 : ℤ) ≤ |a - b| := Int.one_le_abs (sub_ne_zero.mpr hne)
  have h2 : (1 : ℚ) ≤ |((a : ℚ)) - (b : ℚ)| := by exact_mod_cast h1
  linarith

/-- The tolerance test of the `UNNECESSARY` branch is equivalent to the
existence of an integer within `jsEpsilon` of the scaled value. -/
theorem unnecessary_tolerance (q : ℚ) :
    (jsEpsilon < |q - (jsRound q : ℚ)|) ↔ ¬ ∃ z : ℤ, |q - (z : ℚ)| ≤ jsEpsilon := by
  constructor
  · intro hlt ⟨z, hz⟩
    have hhalf : |q - (jsRound q : ℚ)| ≤ 1 / 2 := jsRound_dist q
    have heps : jsEpsilon < 1 / 2 := by unfold jsEpsilon; norm_num
    have : |((jsRound q : ℚ)) - (z : ℚ)| < 1 := by
      calc |((jsRound q : ℚ)) - (z : ℚ)|
          ≤ |((jsRound q : ℚ)) - q| + |q - (z : ℚ)| := abs_sub_le _ _ _
        _ = |q - (jsRound q : ℚ)| + |q - (z : ℚ)| := by rw [abs_sub_comm]
        _ < 1 := by linarith
    have hz' : jsRound q = z := int_cast_dist_lt_one this
    rw [hz'] at hlt
    linarith
  · intro hno
    by_contra hle
    exact hno ⟨jsRound q, le_of_not_lt hle⟩

/-- C7: with rounding mode `UNNECESSARY`, rounding fails with the
rounding-required error iff the scaled value is not already exact at the
target scale — exactly for scale `0` (`value !== Math.floor(value)`), and
within the implementation's `1e-10` tolerance for positive scales (no
integer lies within `jsEpsilon` of `|v| * 10 ^ s`) — and a value that is
exactly representable at the scale passes through unchanged; concretely,
pattern `0.0` under `UNNECESSARY` rejects `1.25` and formats `1.5` as
`"1.5"`. -/
theorem C7_unnecessary :
    (∀ v : ℚ, (round .UNNECESSARY v 0 = .error .roundingRequired) ↔
      ¬ ∃ z : ℤ, v = (z : ℚ)) ∧
    (∀ (v : ℚ) (s : ℕ), 0 < s →
      ((round .UNNECESSARY v s = .error .roundingRequired) ↔
        ¬ ∃ z : ℤ, |(|v| * 10 ^ s) - (z : ℚ)| ≤ jsEpsilon)) ∧
    (∀ (v : ℚ) (s : ℕ) (z : ℤ), v * 10 ^ s = (z : ℚ) →
      round .UNNECESSARY v s = .ok v) ∧
    format (parsePattern "0.0".data) .UNNECESSARY (.finite ⟨5/4, false⟩) =
      .error .roundingRequired ∧
    format (parsePattern "0.0".data) .UNNECESSARY (.finite ⟨3/2, false⟩) =
      .ok "1.5".data := by
  refine ⟨?_, ?_, ?_, by with_unfolding_all decide, by with_unfolding_all decide⟩
  · intro v
    simp only [round, if_pos rfl, roundInteger]
    by_cases h : v = (⌊v⌋ : ℚ)
    · rw [if_neg (not_not_intro h)]
      constructor
      · intro hcontra
        exact absurd hcontra (by simp)
      · intro hno
        exact absurd ⟨⌊v⌋, h⟩ hno
    · rw [if_pos h]
      refine ⟨fun _ => ?_, fun _ => rfl⟩
      rintro ⟨z, rfl⟩
      exact h (by rw [Int.floor_intCast])
  · intro v s hs
    have hs' : ¬ s = 0 := Nat.pos_iff_ne_zero.mp hs
    simp only [round, hs', if_false]
    rw [← unnecessary_tolerance (|v| * 10 ^ s)]
    by_cases h : jsEpsilon < |(|v| * 10 ^ s) - (jsRound (|v| * 10 ^ s) : ℚ)|
    · rw [if_pos h]
      exact ⟨fun _ => h, fun _ => rfl⟩
    · rw [if_neg h]
      exact ⟨fun hc => absurd hc (by simp), fun hc => absurd hc h⟩
  · intro v s z heq
    by_cases hs : s = 0
    · subst hs
      have hv : v = (z : ℚ) := by simpa using heq
      simp only [round, if_pos rfl, roundInteger]
      rw [if_neg (not_not_intro (show v = (⌊v⌋ : ℚ) by rw [hv, Int.floor_intCast]))]
      simp
    · have hpow : (0 : ℚ) < 10 ^ s := by positivity
      have habs : |v| * 10 ^ s = ((|z| : ℤ) : ℚ) := by
        rw [← abs_of_pos hpow, ← abs_mul, heq, Int.cast_abs]
      have hjs : jsRound ((|z| : ℤ) : ℚ) = |z| := by
        unfold jsRound
        rw [Int.floor_int_add]
        norm_num
      simp only [round, hs, if_false]
      rw [habs, hjs]
      rw [if_neg (by rw [sub_self, abs_zero]; unfold jsEpsilon; norm_num)]
      have hfin : (if 0 ≤ v then (1 : ℚ) else -1) * (((|z| : ℤ) : ℚ) / 10 ^ s) = v := by
        rw [habs.symm]
        by_cases hv : 0 ≤ v
        · rw [if_pos hv, abs_of_nonneg hv]
          field_simp
        · rw [if_neg hv, abs_of_neg (not_le.mp hv)]
          field_simp
      rw [hfin]

/-- C7 witness: `1.5` is exact at scale `1` (`1.5 * 10 = 15`), so
`UNNECESSARY` rounding passes it through unchanged. -/
theorem C7_unnecessary_witness :
    ((3 / 2 : ℚ) * 10 ^ 1 = ((15 : ℤ) : ℚ)) ∧
    round .UNNECESSARY (3 / 2 : ℚ) 1 = .ok (3 / 2) :=
  ⟨by norm_num, C7_unnecessary.2.2.1 (3 / 2) 1 15 (by norm_num)⟩

/-- A rational equals the cast of its floor exactly when its negation
does. -/
theorem neg_eq_floor_iff (x : ℚ) :
    (-x = ((⌊-x⌋ : ℤ) : ℚ)) ↔ (x = ((⌊x⌋ : ℤ) : ℚ)) := by
  have aux : ∀ y : ℚ, y = ((⌊y⌋ : ℤ) : ℚ) → -y = ((⌊-y⌋ : ℤ) : ℚ) := by
    intro y h
    rw [h, ← Int.cast_neg, Int.floor_intCast]
  exact ⟨fun h => by simpa using aux (-x) h, aux x⟩

/-- For a positive value and a rounding mode other than `CEILING` and
`FLOOR`, `roundInteger` commutes with negation: the source computes on the
absolute value and re-applies the sign. -/
theorem roundInteger_neg (mode : RoundingMode) (hC : mode ≠ .CEILING)
    (hF : mode ≠ .FLOOR) (x : ℚ) (hx : 0 < x) :
    roundInteger mode (-x) = (roundInteger mode x).map (fun r => -r) := by
  have hneg : (-x) < 0 := neg_neg_of_pos hx
  have hpos : ¬ (x < 0) := not_lt.mpr hx.le
  have habs : |(-x)| = |x| := abs_neg x
  cases mode with
  | CEILING => exact absurd rfl hC
  | FLOOR => exact absurd rfl hF
  | UNNECESSARY =>
      simp only [roundInteger]
      by_cases hfl : x = ((⌊x⌋ : ℤ) : ℚ)
      · rw [if_neg (not_not_intro ((neg_eq_floor_iff x).mpr hfl)),
          if_neg (not_not_intro hfl)]
        simp [Except.map]
      · rw [if_pos (fun h => hfl ((neg_eq_floor_iff x).mp h)), if_pos hfl]
        simp [Except.map]
  | _ =>
      simp only [roundInteger, if_pos hneg, if_neg hpos, habs, Except.map]
      try split_ifs
      all_goals
        simp only [Except.ok.injEq]
        ring

/-- For a positive value and a rounding mode other than `CEILING` and
`FLOOR`, `round` commutes with negation at every scale. -/
theorem round_neg (mode : RoundingMode) (hC : mode ≠ .CEILING)
    (hF : mode ≠ .FLOOR) (x : ℚ) (hx : 0 < x) (s : ℕ) :
    round mode (-x) s = (round mode x s).map (fun r => -r) := by
  by_cases hs : s = 0
  · subst hs
    simp only [round, if_pos rfl]
    exact roundInteger_neg mode hC hF x hx
  · have hnn : ¬ ((0 : ℚ) ≤ -x) := not_le.mpr (neg_neg_of_pos hx)
    have hsx : (0 : ℚ) ≤ x := hx.le
    cases mode with
    | CEILING => exact absurd rfl hC
    | FLOOR => exact absurd rfl hF
    | _ =>
        simp only [round, hs, if_false, abs_neg, if_neg hnn, if_pos hsx, Except.map]
        try split_ifs
        all_goals
          simp only [Except.ok.injEq, Except.map]
          try ring

/-- For a positive value and a rounding mode other than `CEILING` and
`FLOOR`, `formatStandard` renders a value and its negation identically:
the rounded results differ only in sign and the renderer takes the
absolute value. -/
theorem formatStandard_neg (pp : ParsedPattern) (mode : RoundingMode)
    (hC : mode ≠ .CEILING) (hF : mode ≠ .FLOOR) (x : ℚ) (hx : 0 < x) :
    formatStandard pp mode (-x) = formatStandard pp mode x := by
  unfold formatStandard
  rw [round_neg mode hC hF x hx]
  cases h : round mode x pp.maxFractionDigits with
  | error e => simp [Except.map]
  | ok r => simp [Except.map, abs_neg]

/-- C6: under `HALF_EVEN`, a value exactly halfway between the two
neighbours at the target scale rounds to the neighbour whose last retained
digit is even — for nonnegative halfway values directly, and for negative
halfway values by sign symmetry; in particular pattern `#,##0.0` formats
`1.25` as `"1.2"` and `1.35` as `"1.4"`. -/
theorem C6_half_even_tie :
    (∀ (x : ℚ) (s n : ℕ), 0 ≤ x → x * 10 ^ s = (n : ℚ) + 1 / 2 →
      round .HALF_EVEN x s =
        .ok ((if n % 2 = 0 then (n : ℚ) else (n : ℚ) + 1) / 10 ^ s)) ∧
    (∀ (x : ℚ) (s n : ℕ), 0 ≤ x → x * 10 ^ s = (n : ℚ) + 1 / 2 →
      round .HALF_EVEN (-x) s =
        .ok (-((if n % 2 = 0 then (n : ℚ) else (n : ℚ) + 1) / 10 ^ s))) ∧
    format (parsePattern "#,##0.0".data) .HALF_EVEN (.finite ⟨5/4, false⟩) =
      .ok "1.2".data ∧
    format (parsePattern "#,##0.0".data) .HALF_EVEN (.finite ⟨27/20, false⟩) =
      .ok "1.4".data := by
  refine ⟨round_half_even_tie_nonneg, ?_,
    by with_unfolding_all decide, by with_unfolding_all decide⟩
  intro x s n hx heq
  have hxpos : 0 < x := by
    have hpow : (0 : ℚ) < 10 ^ s := by positivity
    have hn : (0 : ℚ) ≤ (n : ℚ) := Nat.cast_nonneg n
    have hprod : 0 < x * 10 ^ s := by rw [heq]; linarith
    rcases mul_pos_iff.mp hprod with ⟨h, _⟩ | ⟨_, hb⟩
    · exact h
    · exact absurd hpow (not_lt.mpr hb.le)
  rw [round_neg .HALF_EVEN (by decide) (by decide) x hxpos s,
    round_half_even_tie_nonneg x s n hx heq]
  rfl

/-- C6 witness: the tie statement at the concrete halfway input
`0.25 * 10 ^ 1 = 2 + 1/2`, which rounds to the even neighbour `2`. -/
theorem C6_half_even_tie_witness :
    (0 : ℚ) ≤ 1 / 4 ∧ (1 / 4 : ℚ) * 10 ^ 1 = (2 : ℕ) + 1 / 2 ∧
    round .HALF_EVEN (1 / 4) 1 =
      .ok ((if 2 % 2 = 0 then ((2 : ℕ) : ℚ) else ((2 : ℕ) : ℚ) + 1) / 10 ^ 1) :=
  ⟨by norm_num, by norm_num,
    C6_half_even_tie.1 (1 / 4) 1 2 (by norm_num) (by norm_num)⟩

/-- `scanStep` keeps the multiplier positive (it only ever sets it to
`100` or `1000`). -/
theorem scanStep_multiplier_pos (st : ScanState) (c : Char)
    (h : 0 < st.multiplier) : 0 < (scanStep st c).multiplier := by
  obtain ⟨reg, q, px, sx, np, ue, me, m⟩ := st
  simp only at h
  unfold scanStep
  cases reg <;> repeat' split
  all_goals simp_all

/-- Scanning keeps the multiplier positive. -/
theorem scan_multiplier_pos (l : List Char) :
    ∀ st : ScanState, 0 < st.multiplier → 0 < (l.foldl scanStep st).multiplier := by
  induction l with
  | nil => intro st h; simpa using h
  | cons c rest ih =>
      intro st h
      simpa using ih (scanStep st c) (scanStep_multiplier_pos st c h)

/-- Every compiled sub-pattern has a positive multiplier. -/
theorem parseSubpattern_multiplier_pos (s : List Char) :
    0 < (parseSubpattern s).multiplier := by
  have h := scan_multiplier_pos s scanInit (by norm_num [scanInit])
  unfold parseSubpattern
  by_cases hnp : (s.foldl scanStep scanInit).numberPart = [] <;> simp [hnp, h]

/-- Every compiled pattern has a positive multiplier. -/
theorem parsePattern_multiplier_pos (p : List Char) :
    0 < (parsePattern p).multiplier := by
  unfold parsePattern
  cases hsem : findUnquotedSemicolonAux p false 0 <;>
    simpa using parseSubpattern_multiplier_pos _

/-- Without an unquoted `';'`, the negative affixes are derived: the
negative prefix is `'-'` prepended to the positive prefix, and the
negative suffix is the positive suffix. -/
theorem parsePattern_derived (p : List Char)
    (h : findUnquotedSemicolonAux p false 0 = none) :
    (parsePattern p).negativePrefix = '-' :: (parsePattern p).positivePrefix ∧
    (parsePattern p).negativeSuffix = (parsePattern p).positiveSuffix := by
  unfold parsePattern
  rw [h]
  exact ⟨rfl, rfl⟩

/-- C1 counterexample: the claim fails under the directional `CEILING`
mode.  With pattern `#` (no negative sub-pattern, empty affixes),
`format(1.5)` gives body `"2"`, so the claim predicts
`format(-1.5) = "-2"`; the code rounds the negative value towards zero
and returns `"-1"`. -/
theorem C1_counterexample :
    format (parsePattern ['#']) .CEILING (.finite ⟨3/2, false⟩) = .ok ['2'] ∧
    format (parsePattern ['#']) .CEILING (.finite ⟨-(3/2), false⟩) = .ok ['-', '1'] ∧
    format (parsePattern ['#']) .CEILING (.finite ⟨-(3/2), false⟩) ≠
      (format (parsePattern ['#']) .CEILING (.finite ⟨3/2, false⟩)).map
        (fun s => '-' :: s) := by
  refine ⟨?_, ?_, ?_⟩ <;> with_unfolding_all decide

/-- C1 (amended): for every pattern without an explicit negative
sub-pattern and every `v > 0`, formatting `-v` yields exactly `format(v)`
with `'-'` prepended — the minus sign precedes the entire positive prefix
and the digit body of `-v` coincides with that of `v` — provided the
rounding mode is not one of the directional modes `CEILING`/`FLOOR` (for
those the sign still precedes the prefix, but the body of `-v` is the
sign-aware rounding of `-v`, which can differ from the body of `v`). -/
theorem C1_sign_before_prefix (p : List Char) (mode : RoundingMode) (v : ℚ)
    (hsemi : findUnquotedSemicolonAux p false 0 = none) (hv : 0 < v)
    (hC : mode ≠ .CEILING) (hF : mode ≠ .FLOOR) :
    format (parsePattern p) mode (.finite ⟨-v, false⟩) =
      (format (parsePattern p) mode (.finite ⟨v, false⟩)).map (fun s => '-' :: s) := by
  have hm : 0 < (parsePattern p).multiplier := parsePattern_multiplier_pos p
  have hw : 0 < v * (parsePattern p).multiplier := mul_pos hv hm
  obtain ⟨hpre, hsuf⟩ := parsePattern_derived p hsemi
  set pp := parsePattern p with hpp
  have hneg : -v * pp.multiplier = -(v * pp.multiplier) := by ring
  have h1 : -v * pp.multiplier < 0 := by rw [hneg]; exact neg_neg_of_pos hw
  have h2 : -v * pp.multiplier ≠ 0 := ne_of_lt h1
  have hposneg : ¬ (v * pp.multiplier < 0 ∧ v * pp.multiplier ≠ 0) :=
    fun hcontra => absurd hcontra.1 (not_lt.mpr hw.le)
  have hbody :
      (if pp.useExponentialNotation then formatExponential pp mode |(-v * pp.multiplier)|
        else formatStandard pp mode (-v * pp.multiplier)) =
      (if pp.useExponentialNotation then formatExponential pp mode |v * pp.multiplier|
        else formatStandard pp mode (v * pp.multiplier)) := by
    by_cases hexp : pp.useExponentialNotation
    · rw [if_pos hexp, if_pos hexp, hneg, abs_neg]
    · rw [if_neg hexp, if_neg hexp, hneg]
      exact formatStandard_neg pp mode hC hF (v * pp.multiplier) hw
  have hcond : -v * pp.multiplier < 0 ∧ -v * pp.multiplier ≠ 0 := ⟨h1, h2⟩
  simp only [format, if_pos hcond, if_neg hposneg, hbody]
  cases hB :
    (if pp.useExponentialNotation then formatExponential pp mode |v * pp.multiplier|
      else formatStandard pp mode (v * pp.multiplier)) with
  | error e => simp [Except.map]
  | ok b =>
      simp only [Except.map, hpre, hsuf]
      simp [List.cons_append, hw, hv.ne', hm.ne']

/-- C1 witness: the amended sign-placement statement at the concrete
pattern `"0"`, mode `UP` and value `1`. -/
theorem C1_sign_before_prefix_witness :
    format (parsePattern "0".data) .UP (.finite ⟨-1, false⟩) =
      (format (parsePattern "0".data) .UP (.finite ⟨1, false⟩)).map
        (fun s => '-' :: s) :=
  C1_sign_before_prefix "0".data .UP 1 (by decide) (by norm_num) (by decide) (by decide)

end JavaDecimalFormat

/-!
Sanity checks: the embedding reproduces the reference behaviour on the
spec's concrete examples (grouping, sign placement, percent scaling,
zero suppression, scientific notation, explicit negative sub-pattern).
-/

open JavaDecimalFormat in
example :
    format (parsePattern "#,##0.0".data) .HALF_EVEN (.finite ⟨5/4, false⟩) =
      .ok "1.2".data := by
  with_unfolding_all decide
open JavaDecimalFormat in
example :
    format (parsePattern "#,##0.0".data) .HALF_EVEN (.finite ⟨27/20, false⟩) =
      .ok "1.4".data := by
  with_unfolding_all decide
open JavaDecimalFormat in
example :
    format (parsePattern "#,##0.00".data) .HALF_EVEN (.finite ⟨30864, false⟩) =
      .ok "30,864.00".data := by
  with_unfolding_all decide
open JavaDecimalFormat in
example :
    format (parsePattern "$#,##0.00".data) .HALF_EVEN (.finite ⟨-12345/100, false⟩) =
      .ok "-$123.45".data := by
  with_unfolding_all decide
open JavaDecimalFormat in
example :
    format (parsePattern "#,##0.00%".data) .HALF_EVEN (.finite ⟨1234/10000, false⟩) =
      .ok "12.34%".data := by
  with_unfolding_all decide
open JavaDecimalFormat in
example :
    format (parsePattern "###.##".data) .HALF_EVEN (.finite ⟨1/2, false⟩) =
      .ok ".5".data := by
  with_unfolding_all decide
open JavaDecimalFormat in
example :
    format (parsePattern "0.00E0".data) .HALF_EVEN (.finite ⟨123456/100, false⟩) =
      .ok "1.23E3".data := by
  with_unfolding_all decide
open JavaDecimalFormat in
example :
    format (parsePattern "0.00E0".data) .HALF_EVEN (.finite ⟨12/100000, false⟩) =
      .ok "1.20E-4".data := by
  with_unfolding_all decide
open JavaDecimalFormat in
example :
    format (parsePattern "$#,##0.00;($#,##0.00)".data) .HALF_EVEN
      (.finite ⟨-100, false⟩) = .ok "($100.00)".data := by
  with_unfolding_all decide
example : JavaDecimalFormat.round .HALF_EVEN (5/4) 1 = .ok (6/5) := by
  with_unfolding_all decide
example : JavaDecimalFormat.round .HALF_EVEN (27/20) 1 = .ok (7/5) := by
  with_unfolding_all decide
example : JavaDecimalFormat.round .CEILING (-(3/2)) 0 = .ok (-1) := by
  with_unfolding_all decide
example : JavaDecimalFormat.round .UNNECESSARY (5/4) 1 = .error .roundingRequired := by
  with_unfolding_all decide
example : JavaDecimalFormat.applyGrouping "1234567".data 3 = "1,234,567".data := by decide
example : JavaDecimalFormat.trimTrailingZeros "500".data 1 = "5".data := by decide
example : JavaDecimalFormat.padStart "7".data 3 '0' = "007".data := by decide
example : JavaDecimalFormat.natToChars 1024 = "1024".data := by decide
